import Mathlib

/-!
Verification development for the payroll web backend (`server.js`).

The server is embedded shallowly: the SQLite tables become lists of row
structures inside a `DB` state, each HTTP handler becomes a pure function
from the state (and the session's user id) to a response together with the
new state, and JSON serialization of the autosave `times` column is
modelled as the identity on the stored list.  The overtime calculator
lives in the client-side scripts, which are not part of the repository
snapshot, so it is modelled from the specification.
-/

namespace Payroll

/-! ## Overtime calculator (client side, modelled from the spec) -/

/-- Modelled from the spec: one clock-in/clock-out shift, times as minutes
since midnight (the source stores nullable "HH:MM" strings; the overtime
calculator itself is in the client scripts, absent from the snapshot). -/
structure Shift where
  tin : Nat
  tout : Nat
deriving DecidableEq

/-- Modelled from the spec: one day's entry, up to two shifts. -/
structure DayEntry where
  s1 : Option Shift
  s2 : Option Shift
deriving DecidableEq

/-- Modelled from the spec: duration of an optional shift in hours; a
missing pair counts as zero duration. -/
def shiftHours : Option Shift → ℚ
  | none => 0
  | some s => ((s.tout : ℚ) - (s.tin : ℚ)) / 60

/-- Modelled from the spec: worked hours of one day (sum of both shifts). -/
def dayHours (d : DayEntry) : ℚ :=
  shiftHours d.s1 + shiftHours d.s2

/-- Modelled from the spec: daily overtime candidate, hours beyond 9. -/
def dailyOvertime (d : DayEntry) : ℚ :=
  max 0 (dayHours d - 9)

/-- Modelled from the spec: weekly total hours. -/
def weeklyHours (w : List DayEntry) : ℚ :=
  (w.map dayHours).sum

/-- Modelled from the spec: final overtime hours, the larger of the two
aggregation strategies (sum of daily candidates vs. weekly excess over 40). -/
def overtimeHours (w : List DayEntry) : ℚ :=
  max ((w.map dailyOvertime).sum) (max 0 (weeklyHours w - 40))

/-- Modelled from the spec: regular hours, total minus overtime, floored at 0. -/
def regularHours (w : List DayEntry) : ℚ :=
  max 0 (weeklyHours w - overtimeHours w)

/-- Modelled from the spec: result triple of the calculator. -/
structure PayResult where
  regular : ℚ
  overtime : ℚ
  gross : ℚ
deriving DecidableEq

/-- Modelled from the spec: the whole calculator. -/
def calcWeek (w : List DayEntry) (rate mult : ℚ) : PayResult :=
  { regular := regularHours w
    overtime := overtimeHours w
    gross := regularHours w * rate + overtimeHours w * rate * mult }

/-- Five days of a single 9:00–18:00 shift followed by two empty days. -/
def fiveNineDays : List DayEntry :=
  List.replicate 5 ⟨some ⟨540, 1080⟩, none⟩ ++ List.replicate 2 ⟨none, none⟩

/-- Modelled from the spec: a shift is well formed when the clock-out time
is not earlier than the clock-in time. -/
def validShift : Option Shift → Bool
  | none => true
  | some s => s.tin ≤ s.tout

/-- Modelled from the spec: both shifts of the day are well formed. -/
def validDay (d : DayEntry) : Bool :=
  validShift d.s1 && validShift d.s2

/-! ## Data model of the SQLite store (`server.js`, CREATE TABLE block) -/

/-- Row of `time_entries` minus the key columns: the four nullable TEXT
time-of-day columns `in1, out1, in2, out2`. -/
structure TimeFields where
  in1 : Option String
  out1 : Option String
  in2 : Option String
  out2 : Option String
deriving DecidableEq

/-- Row of the `users` table; `created_at` is a logical timestamp. -/
structure UserRow where
  id : Nat
  username : String
  password : String
  created_at : Nat
deriving DecidableEq

/-- Row of the `weeks` table. -/
structure WeekRow where
  id : Nat
  user_id : Nat
  label : String
  start_date : Option String
  hourly_rate : ℚ
  overtime_multiplier : ℚ
  created_at : Nat
deriving DecidableEq

/-- Row of the `time_entries` table. -/
structure EntryRow where
  id : Nat
  week_id : Nat
  day_index : Nat
  fields : TimeFields
deriving DecidableEq

/-- Row of the `autosave` table; the serialized `times` TEXT column is
modelled as the list it serializes (NULL as `none`). -/
structure AutosaveRow where
  id : Nat
  user_id : Nat
  label : Option String
  start_date : Option String
  hourly_rate : ℚ
  overtime_multiplier : ℚ
  times : Option (List TimeFields)
  updated_at : Nat
deriving DecidableEq

/-- The whole store: the four tables, AUTOINCREMENT counters, and a logical
clock `seq` standing for CURRENT_TIMESTAMP. -/
structure DB where
  users : List UserRow
  weeks : List WeekRow
  time_entries : List EntryRow
  autosave : List AutosaveRow
  nextUserId : Nat
  nextWeekId : Nat
  nextEntryId : Nat
  nextAutosaveId : Nat
  seq : Nat
deriving DecidableEq

/-- The freshly created database. -/
def DB.empty : DB :=
  ⟨[], [], [], [], 1, 1, 1, 1, 0⟩

/-- A JSON error response: HTTP status plus the `error` message. -/
structure ApiErr where
  status : Nat
  msg : String
deriving DecidableEq

/-- Response of `requireAuth` when the session has no userId. -/
def unauthorizedErr : ApiErr := ⟨401, "Please log in"⟩

/-- Response of the DELETE week route on a missing or foreign week. -/
def notAuthorizedErr : ApiErr := ⟨403, "Not authorized"⟩

/-- Response of the login route on bad credentials. -/
def invalidCredsErr : ApiErr := ⟨401, "Invalid username or password"⟩

/-- Modelled from the spec: `bcrypt.hash(password, 10)` from the external
bcrypt library — a salted hash that embeds the salt and is never equal to
the plaintext. -/
def bcryptHash (salt : Nat) (p : String) : String :=
  "$2b$10$" ++ toString salt ++ "$" ++ p

/-- Modelled from the spec: `bcrypt.compare(password, hash)` from the
external bcrypt library. -/
def bcryptCompare (p h : String) : Bool :=
  (h.data.take 7 == "$2b$10$".data) && (("$" ++ p).data.isSuffixOf h.data)

/-! ## Handlers (`server.js` routes) -/

/-- The SELECT used by register and login: first user with the username. -/
def findUserByName (db : DB) (u : String) : Option UserRow :=
  db.users.find? (fun r => r.username == u)

/-- POST `/api/register`: validates, rejects taken usernames and short
passwords, stores the bcrypt hash. Empty strings model missing/falsy
request fields. -/
def apiRegister (db : DB) (username password : String) :
    Except ApiErr String × DB :=
  if username = "" ∨ password = "" then
    (.error ⟨400, "Username and password required"⟩, db)
  else if password.length < 4 then
    (.error ⟨400, "Password must be at least 4 characters"⟩, db)
  else
    match findUserByName db username with
    | some _ => (.error ⟨400, "Username already taken"⟩, db)
    | none =>
      (.ok username,
        { db with
          users := db.users ++
            [⟨db.nextUserId, username, bcryptHash db.seq password, db.seq⟩]
          nextUserId := db.nextUserId + 1
          seq := db.seq + 1 })

/-- POST `/api/login`: same error for unknown username and wrong password. -/
def apiLogin (db : DB) (username password : String) : Except ApiErr String :=
  if username = "" ∨ password = "" then
    .error ⟨400, "Username and password required"⟩
  else
    match findUserByName db username with
    | none => .error invalidCredsErr
    | some user =>
      if bcryptCompare password user.password then .ok user.username
      else .error invalidCredsErr

/-- POST `/api/logout`: destroys the session and answers success; the route
is registered without the `requireAuth` middleware. Returns the response
and the session after `req.session.destroy()`. -/
def apiLogout (_sess : Option Nat) : (Except ApiErr Bool) × Option Nat :=
  (.ok true, none)

/-- The `requireAuth` middleware: a route wrapped in it answers 401 when the
session carries no userId, and otherwise runs the handler on that id. -/
def protectedRoute {α : Type} (handler : Nat → Except ApiErr α) :
    Option Nat → Except ApiErr α
  | none => .error unauthorizedErr
  | some uid => handler uid

/-- The `t.in1 || null` coercion of the week-saving route: JS falsy time
values (null, undefined, the empty string) are stored as NULL. -/
def normTime : Option String → Option String
  | none => none
  | some s => if s = "" then none else some s

/-- All four columns of one posted day, after the falsy coercion. -/
def normFields (t : TimeFields) : TimeFields :=
  ⟨normTime t.in1, normTime t.out1, normTime t.in2, normTime t.out2⟩

/-- A day whose four posted values are each NULL or a nonempty string (the
shape of nullable "HH:MM" time strings), so the falsy coercion of the
week-saving route stores them verbatim. -/
def goodFields (t : TimeFields) : Bool :=
  (t.in1 != some "") && (t.out1 != some "") && (t.in2 != some "") && (t.out2 != some "")

/-- Body of POST `/api/weeks`: `times = none` models a request whose
`data.times` is absent (undefined). -/
structure WeekReq where
  label : String
  startDate : Option String
  hourlyRate : ℚ
  overtimeMultiplier : ℚ
  times : Option (List TimeFields)
deriving DecidableEq

/-- The `time_entries` rows produced by the forEach loop of the week-saving
route: the i-th posted day gets `day_index = i`. -/
def insertEntries (wid firstId : Nat) (ts : List TimeFields) : List EntryRow :=
  ((List.range ts.length).zip ts).map fun p =>
    ⟨firstId + p.1, wid, p.1, normFields p.2⟩

/-- POST `/api/weeks`: inserts the week row, then inserts one entry per
element of `data.times`. There is no transaction: when `data.times` is
absent the handler throws on `data.times.forEach` AFTER the week INSERT has
run, so the 500 response leaves the new week row behind with no entries. -/
def apiPostWeek (db : DB) (uid : Nat) (r : WeekReq) : Except ApiErr Nat × DB :=
  let wid := db.nextWeekId
  let db1 : DB :=
    { db with
      weeks := db.weeks ++
        [⟨wid, uid, r.label, r.startDate, r.hourlyRate, r.overtimeMultiplier, db.seq⟩]
      nextWeekId := wid + 1
      seq := db.seq + 1 }
  match r.times with
  | none =>
    (.error ⟨500, "Cannot read properties of undefined (reading forEach)"⟩, db1)
  | some ts =>
    (.ok wid,
      { db1 with
        time_entries := db1.time_entries ++ insertEntries wid db1.nextEntryId ts
        nextEntryId := db1.nextEntryId + ts.length })

/-- DELETE `/api/weeks/:id`: looks up the week's owner; a missing week and a
week of another user get the same 403 answer with nothing deleted; on a
match it deletes the entry rows of the week and then the week row. -/
def apiDeleteWeek (db : DB) (uid wid : Nat) : Except ApiErr Bool × DB :=
  match db.weeks.find? (fun w => w.id == wid) with
  | none => (.error notAuthorizedErr, db)
  | some w =>
    if w.user_id == uid then
      (.ok true,
        { db with
          time_entries := db.time_entries.filter (fun e => e.week_id != wid)
          weeks := db.weeks.filter (fun x => x.id != wid) })
    else
      (.error notAuthorizedErr, db)

/-- One element of the `times` array returned by GET `/api/weeks`. -/
structure TimesObj where
  day_index : Nat
  in1 : Option String
  out1 : Option String
  in2 : Option String
  out2 : Option String
deriving DecidableEq

/-- The `data` object returned by GET `/api/weeks` for one week. -/
structure WeekData where
  startDate : Option String
  hourlyRate : ℚ
  overtimeMultiplier : ℚ
  times : List TimesObj
deriving DecidableEq

/-- One element of the GET `/api/weeks` response array. -/
structure FormattedWeek where
  id : Nat
  label : String
  savedAt : Nat
  data : WeekData
deriving DecidableEq

/-- Stable insertion step for an ascending sort by a Nat key. -/
def insAsc {α : Type} (key : α → Nat) (x : α) : List α → List α
  | [] => [x]
  | y :: ys => if key x ≤ key y then x :: y :: ys else y :: insAsc key x ys

/-- Stable ascending sort by a Nat key; models the JS
`.sort((a, b) => a.day_index - b.day_index)`. -/
def sortAsc {α : Type} (key : α → Nat) : List α → List α
  | [] => []
  | x :: xs => insAsc key x (sortAsc key xs)

/-- Stable insertion step for a descending sort by a Nat key. -/
def insDesc {α : Type} (key : α → Nat) (x : α) : List α → List α
  | [] => [x]
  | y :: ys => if key y ≤ key x then x :: y :: ys else y :: insDesc key x ys

/-- Stable descending sort by a Nat key; models the SQL
`ORDER BY w.created_at DESC`. -/
def sortDesc {α : Type} (key : α → Nat) : List α → List α
  | [] => []
  | x :: xs => insDesc key x (sortDesc key xs)

/-- The JSON object built from one `time_entries` row. -/
def entryToObj (e : EntryRow) : TimesObj :=
  ⟨e.day_index, e.fields.in1, e.fields.out1, e.fields.in2, e.fields.out2⟩

/-- The rows of `time_entries` whose `week_id` is `wid`, in table order. -/
def weekEntries (db : DB) (wid : Nat) : List EntryRow :=
  db.time_entries.filter (fun e => e.week_id == wid)

/-- GET `/api/weeks`: the user's weeks ordered by recency, each with its
entry rows as JSON objects sorted by `day_index`. -/
def apiGetWeeks (db : DB) (uid : Nat) : List FormattedWeek :=
  (sortDesc (fun w => w.created_at) (db.weeks.filter (fun w => w.user_id == uid))).map
    fun w =>
      ⟨w.id, w.label, w.created_at,
        ⟨w.start_date, w.hourly_rate, w.overtime_multiplier,
          sortAsc (fun t => t.day_index) ((weekEntries db w.id).map entryToObj)⟩⟩

/-- Body of POST `/api/autosave`, and also the JSON returned by
GET `/api/autosave` (the two shapes coincide). -/
structure AutosavePayload where
  weekLabel : Option String
  startDate : Option String
  hourlyRate : ℚ
  overtimeMultiplier : ℚ
  times : List TimeFields
deriving DecidableEq

/-- The rows of `autosave` whose `user_id` is `uid`, in table order. -/
def userAutosaves (db : DB) (uid : Nat) : List AutosaveRow :=
  db.autosave.filter (fun a => a.user_id == uid)

/-- POST `/api/autosave`: UPDATE the user's row when one exists (the SQL
UPDATE hits every row with that user_id), otherwise INSERT a fresh row. -/
def apiPostAutosave (db : DB) (uid : Nat) (r : AutosavePayload) :
    Except ApiErr Bool × DB :=
  match db.autosave.find? (fun a => a.user_id == uid) with
  | some _ =>
    (.ok true,
      { db with
        autosave := db.autosave.map fun a =>
          if a.user_id == uid then
            { a with
              label := r.weekLabel
              start_date := r.startDate
              hourly_rate := r.hourlyRate
              overtime_multiplier := r.overtimeMultiplier
              times := some r.times
              updated_at := db.seq }
          else a
        seq := db.seq + 1 })
  | none =>
    (.ok true,
      { db with
        autosave := db.autosave ++
          [⟨db.nextAutosaveId, uid, r.weekLabel, r.startDate, r.hourlyRate,
            r.overtimeMultiplier, some r.times, db.seq⟩]
        nextAutosaveId := db.nextAutosaveId + 1
        seq := db.seq + 1 })

/-- GET `/api/autosave`: the user's row shaped as the payload, a NULL
`times` column parsed as the empty array. -/
def apiGetAutosave (db : DB) (uid : Nat) : Option AutosavePayload :=
  (db.autosave.find? (fun a => a.user_id == uid)).map fun row =>
    ⟨row.label, row.start_date, row.hourly_rate, row.overtime_multiplier,
      row.times.getD []⟩

/-- DELETE `/api/autosave`: removes the user's row. -/
def apiDeleteAutosave (db : DB) (uid : Nat) : Except ApiErr Bool × DB :=
  (.ok true, { db with autosave := db.autosave.filter (fun a => a.user_id != uid) })

/-! ## Reachability through the public API -/

/-- One store-mutating API call (reads do not change the store; login and
logout touch only the session). -/
inductive Step : DB → DB → Prop
  | register (db : DB) (u p : String) : Step db (apiRegister db u p).2
  | postWeek (db : DB) (uid : Nat) (r : WeekReq) : Step db (apiPostWeek db uid r).2
  | deleteWeek (db : DB) (uid wid : Nat) : Step db (apiDeleteWeek db uid wid).2
  | postAutosave (db : DB) (uid : Nat) (r : AutosavePayload) :
      Step db (apiPostAutosave db uid r).2
  | deleteAutosave (db : DB) (uid : Nat) : Step db (apiDeleteAutosave db uid).2

/-- Stores reachable from the fresh database through the public API. -/
inductive Reachable : DB → Prop
  | init : Reachable DB.empty
  | step {db db' : DB} : Reachable db → Step db db' → Reachable db'

/-- One store-mutating API call where any posted week carries at most 7
days, the shape the client always sends. -/
inductive Step7 : DB → DB → Prop
  | register (db : DB) (u p : String) : Step7 db (apiRegister db u p).2
  | postWeek (db : DB) (uid : Nat) (r : WeekReq)
      (h : ∀ ts ∈ r.times, ts.length ≤ 7) : Step7 db (apiPostWeek db uid r).2
  | deleteWeek (db : DB) (uid wid : Nat) : Step7 db (apiDeleteWeek db uid wid).2
  | postAutosave (db : DB) (uid : Nat) (r : AutosavePayload) :
      Step7 db (apiPostAutosave db uid r).2
  | deleteAutosave (db : DB) (uid : Nat) : Step7 db (apiDeleteAutosave db uid).2

/-- Stores reachable through the public API with week payloads of at most 7
days. -/
inductive Reachable7 : DB → Prop
  | init : Reachable7 DB.empty
  | step {db db' : DB} : Reachable7 db → Step7 db db' → Reachable7 db'

/-- Store invariant on time entries: each week's entries are exactly
`day_index` 0..n-1 in table order, and every entry references an
already-allocated week id. -/
def EntriesInv (db : DB) : Prop :=
  (∀ k, (weekEntries db k).map (fun e => e.day_index)
      = List.range (weekEntries db k).length)
  ∧ (∀ e ∈ db.time_entries, e.week_id < db.nextWeekId)

/-- Store invariant: every week holds at most 7 entries. -/
def Entries7 (db : DB) : Prop :=
  ∀ k, (weekEntries db k).length ≤ 7

/-! ## Helper lemmas -/

theorem bcryptHash_ne (salt : Nat) (p : String) : bcryptHash salt p ≠ p := by
  intro hcontra
  have h2 := congrArg String.length hcontra
  rw [bcryptHash] at h2
  simp only [String.length_append] at h2
  have h7 : ("$2b$10$" : String).length = 7 := rfl
  have h1 : ("$" : String).length = 1 := rfl
  omega

/-! ## Claims -/

/-- C1: for every week of 7 daily entries with valid times, the
calculator's final overtime hours equal the maximum of the summed daily
overtime candidates and the weekly excess over 40; five 9-hour days plus
two empty days give 5 overtime hours. -/
theorem C1_overtime_rule (w : List DayEntry) (rate mult : ℚ)
    (hlen : w.length = 7) (hvalid : ∀ d ∈ w, validDay d = true) :
    (calcWeek w rate mult).overtime
      = max ((w.map fun d => max 0 (dayHours d - 9)).sum)
            (max 0 ((w.map dayHours).sum - 40))
  ∧ overtimeHours fiveNineDays = 5 := by
  refine ⟨rfl, ?_⟩
  norm_num [overtimeHours, weeklyHours, dailyOvertime, dayHours, shiftHours,
    fiveNineDays, List.replicate, max_def]

/-- Witness for C1 at the five-nine-days week with rate 45 and multiplier 2. -/
theorem C1_overtime_rule_witness :
    (calcWeek fiveNineDays 45 2).overtime
      = max ((fiveNineDays.map fun d => max 0 (dayHours d - 9)).sum)
            (max 0 ((fiveNineDays.map dayHours).sum - 40))
  ∧ overtimeHours fiveNineDays = 5 :=
  C1_overtime_rule fiveNineDays 45 2 (by decide) (by decide)

/-- C2 (code bug): saving a week is not atomic. A logged-in POST
`/api/weeks` whose `data.times` is absent throws only after the week INSERT
has run: the response is a 500 error, yet the store keeps the freshly
inserted week row with no time entries, unlike the untouched store the
transactional spec demands. -/
theorem C2_week_insert_not_atomic :
    (apiPostWeek (apiRegister DB.empty "alice" "hunter2").2 1
        ⟨"Week 1", none, 45, 2, none⟩).1
      = .error ⟨500, "Cannot read properties of undefined (reading forEach)"⟩
  ∧ (apiPostWeek (apiRegister DB.empty "alice" "hunter2").2 1
        ⟨"Week 1", none, 45, 2, none⟩).2.weeks
      = [⟨1, 1, "Week 1", none, 45, 2, 1⟩]
  ∧ (apiPostWeek (apiRegister DB.empty "alice" "hunter2").2 1
        ⟨"Week 1", none, 45, 2, none⟩).2.time_entries = []
  ∧ (apiPostWeek (apiRegister DB.empty "alice" "hunter2").2 1
        ⟨"Week 1", none, 45, 2, none⟩).2
      ≠ (apiRegister DB.empty "alice" "hunter2").2 := by
  exact ⟨rfl, rfl, rfl, by decide⟩

/-- C3: deleting a missing week and deleting another user's week both
answer the very same 403 error with the store unchanged, so the response
does not reveal whether the week exists. -/
theorem C3_delete_cross_tenant (db : DB) (uid wid : Nat)
    (h : ∀ w ∈ db.weeks, w.id = wid → w.user_id ≠ uid) :
    apiDeleteWeek db uid wid = (.error ⟨403, "Not authorized"⟩, db) := by
  unfold apiDeleteWeek
  cases hf : db.weeks.find? (fun w => w.id == wid) with
  | none => rfl
  | some w =>
    have hid : w.id = wid := by
      have := List.find?_some hf
      simpa using this
    have hne : w.user_id ≠ uid := h w (List.mem_of_find?_eq_some hf) hid
    simp [hne, notAuthorizedErr]

/-- Witness for C3: user 1 deleting week 5, which belongs to user 2. -/
theorem C3_delete_cross_tenant_witness :
    apiDeleteWeek ⟨[], [⟨5, 2, "W", none, 45, 2, 0⟩], [], [], 1, 6, 1, 1, 1⟩ 1 5
      = (.error ⟨403, "Not authorized"⟩,
         ⟨[], [⟨5, 2, "W", none, 45, 2, 0⟩], [], [], 1, 6, 1, 1, 1⟩) :=
  C3_delete_cross_tenant _ 1 5 (by decide)

/-- C8: registration with a taken username or a password shorter than 4
characters answers a 400 error and creates no user row; a successful
registration stores the salted bcrypt hash, which is never the plaintext
password. -/
theorem C8_register_validation (db : DB) (u p : String)
    (hu : u ≠ "") (hp : p ≠ "") :
    ((p.length < 4 ∨ (findUserByName db u).isSome) →
      ∃ e : ApiErr, (apiRegister db u p).1 = .error e ∧ e.status = 400
        ∧ (apiRegister db u p).2 = db)
  ∧ (4 ≤ p.length → findUserByName db u = none →
      (apiRegister db u p).1 = .ok u
      ∧ (apiRegister db u p).2.users
          = db.users ++ [⟨db.nextUserId, u, bcryptHash db.seq p, db.seq⟩]
      ∧ bcryptHash db.seq p ≠ p) := by
  constructor
  · intro hbad
    by_cases hlen : p.length < 4
    · refine ⟨⟨400, "Password must be at least 4 characters"⟩, ?_, rfl, ?_⟩ <;>
        simp [apiRegister, hu, hp, hlen]
    · have hsome : (findUserByName db u).isSome := by
        rcases hbad with hcase | hcase
        · exact absurd hcase hlen
        · exact hcase
      obtain ⟨user, huser⟩ := Option.isSome_iff_exists.mp hsome
      refine ⟨⟨400, "Username already taken"⟩, ?_, rfl, ?_⟩ <;>
        simp [apiRegister, hu, hp, hlen, huser]
  · intro hlen hnone
    have hlt : ¬ p.length < 4 := by omega
    refine ⟨?_, ?_, bcryptHash_ne db.seq p⟩ <;>
      simp [apiRegister, hu, hp, hlt, hnone]

/-- Witness for C8: registering the already-taken username answers 400 and
leaves the store unchanged. -/
theorem C8_register_validation_witness :
    ∃ e : ApiErr,
      (apiRegister ⟨[⟨1, "bob", bcryptHash 0 "hunter2", 0⟩], [], [], [], 2, 1, 1, 1, 1⟩
          "bob" "passw").1 = .error e
      ∧ e.status = 400
      ∧ (apiRegister ⟨[⟨1, "bob", bcryptHash 0 "hunter2", 0⟩], [], [], [], 2, 1, 1, 1, 1⟩
          "bob" "passw").2
        = ⟨[⟨1, "bob", bcryptHash 0 "hunter2", 0⟩], [], [], [], 2, 1, 1, 1, 1⟩ :=
  (C8_register_validation
      ⟨[⟨1, "bob", bcryptHash 0 "hunter2", 0⟩], [], [], [], 2, 1, 1, 1, 1⟩
      "bob" "passw" (by decide) (by decide)).1 (Or.inr (by decide))

/-- C9: a login with an unknown username and a login with a known username
but a wrong password produce the identical 401 response, so the response
does not reveal whether the username exists. -/
theorem C9_login_uniform_error (db : DB) (u1 p1 u2 p2 : String) (user : UserRow)
    (hu1 : u1 ≠ "") (hp1 : p1 ≠ "") (hu2 : u2 ≠ "") (hp2 : p2 ≠ "")
    (h1 : findUserByName db u1 = none)
    (h2 : findUserByName db u2 = some user)
    (h3 : bcryptCompare p2 user.password = false) :
    apiLogin db u1 p1 = .error ⟨401, "Invalid username or password"⟩
  ∧ apiLogin db u2 p2 = .error ⟨401, "Invalid username or password"⟩
  ∧ apiLogin db u1 p1 = apiLogin db u2 p2 := by
  have e1 : apiLogin db u1 p1 = .error invalidCredsErr := by
    simp [apiLogin, hu1, hp1, h1]
  have e2 : apiLogin db u2 p2 = .error invalidCredsErr := by
    simp [apiLogin, hu2, hp2, h2, h3]
  exact ⟨e1, e2, by rw [e1, e2]⟩

/-- Witness for C9: unknown user "bob" versus "alice" with a wrong password. -/
theorem C9_login_uniform_error_witness :
    apiLogin ⟨[⟨1, "alice", bcryptHash 0 "secret", 0⟩], [], [], [], 2, 1, 1, 1, 1⟩
        "bob" "pw123" = .error ⟨401, "Invalid username or password"⟩
  ∧ apiLogin ⟨[⟨1, "alice", bcryptHash 0 "secret", 0⟩], [], [], [], 2, 1, 1, 1, 1⟩
        "alice" "wrong" = .error ⟨401, "Invalid username or password"⟩
  ∧ apiLogin ⟨[⟨1, "alice", bcryptHash 0 "secret", 0⟩], [], [], [], 2, 1, 1, 1, 1⟩
        "bob" "pw123"
      = apiLogin ⟨[⟨1, "alice", bcryptHash 0 "secret", 0⟩], [], [], [], 2, 1, 1, 1, 1⟩
        "alice" "wrong" :=
  C9_login_uniform_error
    ⟨[⟨1, "alice", bcryptHash 0 "secret", 0⟩], [], [], [], 2, 1, 1, 1, 1⟩
    "bob" "pw123" "alice" "wrong" ⟨1, "alice", bcryptHash 0 "secret", 0⟩
    (by decide) (by decide) (by decide) (by decide) (by decide) (by decide) (by decide)

/-- C10: logout answers success for every session, including the absent
one; it never answers the 401 error that the `requireAuth`-protected
routes give to sessionless requests. -/
theorem C10_logout_unprotected (sess : Option Nat) :
    (apiLogout sess).1 = .ok true
  ∧ (apiLogout sess).2 = none
  ∧ (apiLogout sess).1 ≠ .error unauthorizedErr
  ∧ (∀ (α : Type) (handler : Nat → Except ApiErr α),
      protectedRoute handler none = .error unauthorizedErr) := by
  refine ⟨rfl, rfl, ?_, fun α handler => rfl⟩
  simp [apiLogout]

/-! ## Sorting lemmas -/

theorem mem_insAsc {α : Type} (key : α → Nat) (x : α) (l : List α) (a : α) :
    a ∈ insAsc key x l ↔ a = x ∨ a ∈ l := by
  induction l with
  | nil => simp [insAsc]
  | cons y ys ih =>
    by_cases h : key x ≤ key y
    · simp [insAsc, h, List.mem_cons]
    · simp [insAsc, h, List.mem_cons, ih]
      tauto

theorem mem_sortAsc {α : Type} (key : α → Nat) (l : List α) (a : α) :
    a ∈ sortAsc key l ↔ a ∈ l := by
  induction l with
  | nil => simp [sortAsc]
  | cons x xs ih => simp [sortAsc, mem_insAsc, ih, List.mem_cons]

theorem mem_insDesc {α : Type} (key : α → Nat) (x : α) (l : List α) (a : α) :
    a ∈ insDesc key x l ↔ a = x ∨ a ∈ l := by
  induction l with
  | nil => simp [insDesc]
  | cons y ys ih =>
    by_cases h : key y ≤ key x
    · simp [insDesc, h, List.mem_cons]
    · simp [insDesc, h, List.mem_cons, ih]
      tauto

theorem mem_sortDesc {α : Type} (key : α → Nat) (l : List α) (a : α) :
    a ∈ sortDesc key l ↔ a ∈ l := by
  induction l with
  | nil => simp [sortDesc]
  | cons x xs ih => simp [sortDesc, mem_insDesc, ih, List.mem_cons]

theorem pairwise_insAsc {α : Type} (key : α → Nat) (x : α) (l : List α)
    (h : l.Pairwise (fun a b => key a ≤ key b)) :
    (insAsc key x l).Pairwise (fun a b => key a ≤ key b) := by
  induction l with
  | nil => simp [insAsc]
  | cons y ys ih =>
    rw [List.pairwise_cons] at h
    by_cases hxy : key x ≤ key y
    · simp only [insAsc, if_pos hxy]
      refine List.Pairwise.cons ?_ (List.Pairwise.cons h.1 h.2)
      intro b hb
      rcases List.mem_cons.mp hb with rfl | hb'
      · exact hxy
      · exact le_trans hxy (h.1 b hb')
    · simp only [insAsc, if_neg hxy]
      refine List.Pairwise.cons ?_ (ih h.2)
      intro b hb
      rcases (mem_insAsc key x ys b).mp hb with rfl | hb'
      · exact le_of_not_le hxy
      · exact h.1 b hb'

theorem pairwise_sortAsc {α : Type} (key : α → Nat) (l : List α) :
    (sortAsc key l).Pairwise (fun a b => key a ≤ key b) := by
  induction l with
  | nil => simp [sortAsc]
  | cons x xs ih => exact pairwise_insAsc key x _ ih

theorem sortAsc_of_pairwise_lt {α : Type} (key : α → Nat) (l : List α)
    (h : l.Pairwise (fun a b => key a < key b)) :
    sortAsc key l = l := by
  induction l with
  | nil => rfl
  | cons x xs ih =>
    rw [List.pairwise_cons] at h
    show insAsc key x (sortAsc key xs) = x :: xs
    rw [ih h.2]
    cases xs with
    | nil => rfl
    | cons y ys =>
      have hxy : key x ≤ key y := le_of_lt (h.1 y (List.mem_cons_self y ys))
      simp [insAsc, hxy]

theorem pairwise_fst_zip {α β : Type} (l1 : List α) (l2 : List β)
    (R : α → α → Prop) (h : l1.Pairwise R) :
    (l1.zip l2).Pairwise (fun p q => R p.1 q.1) := by
  induction l1 generalizing l2 with
  | nil => simp
  | cons x xs ih =>
    cases l2 with
    | nil => simp
    | cons y ys =>
      rw [List.pairwise_cons] at h
      rw [List.zip_cons_cons]
      refine List.Pairwise.cons ?_ (ih ys h.2)
      intro p hp
      obtain ⟨a, b⟩ := p
      exact h.1 a (List.of_mem_zip hp).1

theorem deleteWeek_none (db : DB) (uid wid : Nat)
    (hnone : db.weeks.find? (fun x => x.id == wid) = none) :
    apiDeleteWeek db uid wid = (.error notAuthorizedErr, db) := by
  simp [apiDeleteWeek, hnone]

/-- C4: deleting an owned week succeeds, removes the week row and every
time-entry row of that week, and a second delete of the same id fails with
the 403 error, leaving the store unchanged. -/
theorem C4_delete_week (db : DB) (uid wid : Nat) (w : WeekRow)
    (hfind : db.weeks.find? (fun x => x.id == wid) = some w)
    (hown : w.user_id = uid) :
    (apiDeleteWeek db uid wid).1 = .ok true
  ∧ (∀ x ∈ (apiDeleteWeek db uid wid).2.weeks, x.id ≠ wid)
  ∧ (∀ e ∈ (apiDeleteWeek db uid wid).2.time_entries, e.week_id ≠ wid)
  ∧ apiDeleteWeek (apiDeleteWeek db uid wid).2 uid wid
      = (.error ⟨403, "Not authorized"⟩, (apiDeleteWeek db uid wid).2) := by
  have hres : apiDeleteWeek db uid wid
      = (.ok true,
         { db with
           time_entries := db.time_entries.filter (fun e => e.week_id != wid)
           weeks := db.weeks.filter (fun x => x.id != wid) }) := by
    simp [apiDeleteWeek, hfind, hown]
  refine ⟨by rw [hres], ?_, ?_, ?_⟩
  · intro x hx
    rw [hres] at hx
    simp only [List.mem_filter] at hx
    simpa using hx.2
  · intro e he
    rw [hres] at he
    simp only [List.mem_filter] at he
    simpa using he.2
  · have hnone : ((apiDeleteWeek db uid wid).2.weeks).find? (fun x => x.id == wid)
        = none := by
      rw [hres, List.find?_eq_none]
      intro x hx
      simp only [List.mem_filter] at hx
      simpa using hx.2
    exact deleteWeek_none _ uid wid hnone

/-- Witness for C4: user 1 deletes their week 1, which has two entries. -/
theorem C4_delete_week_witness :
    (apiDeleteWeek
        ⟨[], [⟨1, 1, "W", none, 45, 2, 0⟩],
         [⟨1, 1, 0, ⟨none, none, none, none⟩⟩, ⟨2, 1, 1, ⟨none, none, none, none⟩⟩],
         [], 1, 2, 3, 1, 1⟩ 1 1).1 = .ok true
  ∧ (∀ x ∈ (apiDeleteWeek
        ⟨[], [⟨1, 1, "W", none, 45, 2, 0⟩],
         [⟨1, 1, 0, ⟨none, none, none, none⟩⟩, ⟨2, 1, 1, ⟨none, none, none, none⟩⟩],
         [], 1, 2, 3, 1, 1⟩ 1 1).2.weeks, x.id ≠ 1)
  ∧ (∀ e ∈ (apiDeleteWeek
        ⟨[], [⟨1, 1, "W", none, 45, 2, 0⟩],
         [⟨1, 1, 0, ⟨none, none, none, none⟩⟩, ⟨2, 1, 1, ⟨none, none, none, none⟩⟩],
         [], 1, 2, 3, 1, 1⟩ 1 1).2.time_entries, e.week_id ≠ 1)
  ∧ apiDeleteWeek (apiDeleteWeek
        ⟨[], [⟨1, 1, "W", none, 45, 2, 0⟩],
         [⟨1, 1, 0, ⟨none, none, none, none⟩⟩, ⟨2, 1, 1, ⟨none, none, none, none⟩⟩],
         [], 1, 2, 3, 1, 1⟩ 1 1).2 1 1
      = (.error ⟨403, "Not authorized"⟩, (apiDeleteWeek
        ⟨[], [⟨1, 1, "W", none, 45, 2, 0⟩],
         [⟨1, 1, 0, ⟨none, none, none, none⟩⟩, ⟨2, 1, 1, ⟨none, none, none, none⟩⟩],
         [], 1, 2, 3, 1, 1⟩ 1 1).2) :=
  C4_delete_week _ 1 1 ⟨1, 1, "W", none, 45, 2, 0⟩ (by decide) rfl

theorem normTime_eq (o : Option String) (h : o ≠ some "") : normTime o = o := by
  cases o with
  | none => rfl
  | some s =>
    have hs : s ≠ "" := fun hs => h (by rw [hs])
    simp [normTime, hs]

theorem normFields_eq (t : TimeFields) (h : goodFields t = true) : normFields t = t := by
  simp only [goodFields, Bool.and_eq_true, bne_iff_ne, ne_eq] at h
  obtain ⟨⟨⟨h1, h2⟩, h3⟩, h4⟩ := h
  simp [normFields, normTime_eq _ h1, normTime_eq _ h2, normTime_eq _ h3, normTime_eq _ h4]

/-- C6: saving a 7-day week whose time values are NULL or nonempty strings
and then listing the weeks returns that week, its entries carrying
`day_index` 0..6 in order with the four time values identical to the input. -/
theorem C6_roundtrip (db : DB) (uid : Nat) (r : WeekReq) (ts : List TimeFields)
    (hts : r.times = some ts) (hlen : ts.length = 7)
    (hgood : ∀ t ∈ ts, goodFields t = true)
    (hB : ∀ e ∈ db.time_entries, e.week_id < db.nextWeekId) :
    (apiPostWeek db uid r).1 = .ok db.nextWeekId
  ∧ ∃ fw ∈ apiGetWeeks (apiPostWeek db uid r).2 uid,
      fw.id = db.nextWeekId ∧ fw.label = r.label
      ∧ fw.data.startDate = r.startDate
      ∧ fw.data.hourlyRate = r.hourlyRate
      ∧ fw.data.overtimeMultiplier = r.overtimeMultiplier
      ∧ fw.data.times.map (fun o => o.day_index) = List.range 7
      ∧ fw.data.times.map (fun o => (o.in1, o.out1, o.in2, o.out2))
          = ts.map (fun t => (t.in1, t.out1, t.in2, t.out2)) := by
  have hpost : apiPostWeek db uid r
      = (.ok db.nextWeekId,
         { users := db.users
           weeks := db.weeks ++
             [⟨db.nextWeekId, uid, r.label, r.startDate, r.hourlyRate,
               r.overtimeMultiplier, db.seq⟩]
           time_entries := db.time_entries ++
             insertEntries db.nextWeekId db.nextEntryId ts
           autosave := db.autosave
           nextUserId := db.nextUserId
           nextWeekId := db.nextWeekId + 1
           nextEntryId := db.nextEntryId + ts.length
           nextAutosaveId := db.nextAutosaveId
           seq := db.seq + 1 }) := by
    simp [apiPostWeek, hts]
  refine ⟨by rw [hpost], ?_⟩
  have hw : (⟨db.nextWeekId, uid, r.label, r.startDate, r.hourlyRate,
      r.overtimeMultiplier, db.seq⟩ : WeekRow) ∈ (apiPostWeek db uid r).2.weeks := by
    rw [hpost]
    simp
  have hfilter_old : db.time_entries.filter (fun e => e.week_id == db.nextWeekId)
      = [] := by
    rw [List.filter_eq_nil_iff]
    intro e he
    have := hB e he
    simp only [beq_iff_eq]
    omega
  have hfilter_new : (insertEntries db.nextWeekId db.nextEntryId ts).filter
        (fun e => e.week_id == db.nextWeekId)
      = insertEntries db.nextWeekId db.nextEntryId ts := by
    rw [List.filter_eq_self]
    intro e he
    rw [insertEntries] at he
    obtain ⟨p, hp, rfl⟩ := List.mem_map.mp he
    simp
  have hweekEntries : weekEntries (apiPostWeek db uid r).2 db.nextWeekId
      = insertEntries db.nextWeekId db.nextEntryId ts := by
    rw [weekEntries, hpost]
    show (db.time_entries ++ insertEntries db.nextWeekId db.nextEntryId ts).filter
        (fun e => e.week_id == db.nextWeekId)
      = insertEntries db.nextWeekId db.nextEntryId ts
    rw [List.filter_append, hfilter_old, hfilter_new, List.nil_append]
  have hmapobj : (weekEntries (apiPostWeek db uid r).2 db.nextWeekId).map entryToObj
      = ((List.range ts.length).zip ts).map
          (fun p => ⟨p.1, p.2.in1, p.2.out1, p.2.in2, p.2.out2⟩) := by
    rw [hweekEntries, insertEntries, List.map_map]
    apply List.map_congr_left
    intro p hp
    have hmem : p.2 ∈ ts := (List.of_mem_zip hp).2
    have hnf := normFields_eq p.2 (hgood p.2 hmem)
    simp [entryToObj, Function.comp, hnf]
  have hsorted : sortAsc (fun t => t.day_index)
        (((List.range ts.length).zip ts).map
          (fun p => (⟨p.1, p.2.in1, p.2.out1, p.2.in2, p.2.out2⟩ : TimesObj)))
      = ((List.range ts.length).zip ts).map
          (fun p => ⟨p.1, p.2.in1, p.2.out1, p.2.in2, p.2.out2⟩) := by
    apply sortAsc_of_pairwise_lt
    rw [List.pairwise_map]
    exact pairwise_fst_zip _ _ _ (List.pairwise_lt_range ts.length)
  refine ⟨⟨db.nextWeekId, r.label, db.seq,
    ⟨r.startDate, r.hourlyRate, r.overtimeMultiplier,
      sortAsc (fun t => t.day_index)
        ((weekEntries (apiPostWeek db uid r).2 db.nextWeekId).map entryToObj)⟩⟩,
    ?_, rfl, rfl, rfl, rfl, rfl, ?_, ?_⟩
  · simp only [apiGetWeeks]
    apply List.mem_map.mpr
    refine ⟨⟨db.nextWeekId, uid, r.label, r.startDate, r.hourlyRate,
      r.overtimeMultiplier, db.seq⟩, ?_, rfl⟩
    apply (mem_sortDesc _ _ _).mpr
    apply List.mem_filter.mpr
    exact ⟨hw, by simp⟩
  · show (sortAsc (fun t => t.day_index)
        ((weekEntries (apiPostWeek db uid r).2 db.nextWeekId).map entryToObj)).map
          (fun o => o.day_index) = List.range 7
    rw [hmapobj, hsorted, List.map_map]
    rw [show ((fun o : TimesObj => o.day_index) ∘
        fun p : Nat × TimeFields =>
          (⟨p.1, p.2.in1, p.2.out1, p.2.in2, p.2.out2⟩ : TimesObj)) = Prod.fst from rfl]
    rw [List.map_fst_zip _ _ (by simp), hlen]
  · show (sortAsc (fun t => t.day_index)
        ((weekEntries (apiPostWeek db uid r).2 db.nextWeekId).map entryToObj)).map
          (fun o => (o.in1, o.out1, o.in2, o.out2))
      = ts.map (fun t => (t.in1, t.out1, t.in2, t.out2))
    rw [hmapobj, hsorted, List.map_map]
    rw [show ((fun o : TimesObj => (o.in1, o.out1, o.in2, o.out2)) ∘
        fun p : Nat × TimeFields =>
          (⟨p.1, p.2.in1, p.2.out1, p.2.in2, p.2.out2⟩ : TimesObj))
      = (fun t : TimeFields => (t.in1, t.out1, t.in2, t.out2)) ∘ Prod.snd from rfl]
    rw [← List.map_map, List.map_snd_zip _ _ (by simp)]

/-- Witness for C6: a fresh store, one saved week of seven 08:00–12:00 days. -/
theorem C6_roundtrip_witness :
    (apiPostWeek DB.empty 1
        ⟨"W", none, 45, 2,
          some (List.replicate 7 ⟨some "08:00", some "12:00", none, none⟩)⟩).1
      = .ok DB.empty.nextWeekId
  ∧ ∃ fw ∈ apiGetWeeks (apiPostWeek DB.empty 1
        ⟨"W", none, 45, 2,
          some (List.replicate 7 ⟨some "08:00", some "12:00", none, none⟩)⟩).2 1,
      fw.id = DB.empty.nextWeekId ∧ fw.label = "W"
      ∧ fw.data.startDate = none
      ∧ fw.data.hourlyRate = 45
      ∧ fw.data.overtimeMultiplier = 2
      ∧ fw.data.times.map (fun o => o.day_index) = List.range 7
      ∧ fw.data.times.map (fun o => (o.in1, o.out1, o.in2, o.out2))
          = (List.replicate 7
              (⟨some "08:00", some "12:00", none, none⟩ : TimeFields)).map
              (fun t => (t.in1, t.out1, t.in2, t.out2)) :=
  C6_roundtrip DB.empty 1
    ⟨"W", none, 45, 2,
      some (List.replicate 7 ⟨some "08:00", some "12:00", none, none⟩)⟩
    (List.replicate 7 ⟨some "08:00", some "12:00", none, none⟩)
    rfl (by decide) (by decide) (by decide)

/-! ## Autosave lemmas -/

theorem find?_eq_head?_filter {α : Type} (p : α → Bool) (l : List α) :
    l.find? p = (l.filter p).head? := by
  induction l with
  | nil => rfl
  | cons x xs ih =>
    by_cases h : p x
    · rw [List.find?_cons_of_pos _ h, List.filter_cons_of_pos h]
      rfl
    · rw [List.find?_cons_of_neg _ h, List.filter_cons_of_neg h, ih]

theorem eq_singleton_of_length_le_one {α : Type} (l : List α) (h : l.length ≤ 1)
    (a : α) (ha : a ∈ l) : l = [a] := by
  cases l with
  | nil => simp at ha
  | cons x xs =>
    cases xs with
    | nil =>
      have : a = x := by simpa using ha
      rw [this]
    | cons y ys => simp at h

theorem filter_map_comm {α : Type} (f : α → α) (p : α → Bool)
    (hp : ∀ a, p (f a) = p a) (l : List α) :
    (l.map f).filter p = (l.filter p).map f := by
  induction l with
  | nil => rfl
  | cons x xs ih =>
    rw [List.map_cons, List.filter_cons, List.filter_cons, hp x, ih]
    by_cases h : p x <;> simp [h]

theorem postAutosave_userRows (db : DB) (uid : Nat) (r : AutosavePayload)
    (h : (userAutosaves db uid).length ≤ 1) :
    ∃ i : Nat, userAutosaves (apiPostAutosave db uid r).2 uid
      = [⟨i, uid, r.weekLabel, r.startDate, r.hourlyRate, r.overtimeMultiplier,
          some r.times, db.seq⟩] := by
  cases hf : db.autosave.find? (fun a => a.user_id == uid) with
  | none =>
    have hempty : db.autosave.filter (fun a => a.user_id == uid) = [] := by
      rw [List.filter_eq_nil_iff]
      intro a ha
      exact List.find?_eq_none.mp hf a ha
    refine ⟨db.nextAutosaveId, ?_⟩
    rw [userAutosaves]
    simp only [apiPostAutosave, hf]
    rw [List.filter_append, hempty, List.nil_append]
    simp only [List.filter_cons, List.filter_nil, beq_self_eq_true, if_true]
  | some a0 =>
    have hpred := List.find?_some hf
    have hmem := List.mem_of_find?_eq_some hf
    have huid : a0.user_id = uid := by simpa using hpred
    have hsingle : db.autosave.filter (fun a => a.user_id == uid) = [a0] :=
      eq_singleton_of_length_le_one _ h a0 (List.mem_filter.mpr ⟨hmem, hpred⟩)
    refine ⟨a0.id, ?_⟩
    rw [userAutosaves]
    simp only [apiPostAutosave, hf]
    rw [filter_map_comm _ _ ?hp, hsingle]
    case hp =>
      intro a
      by_cases hcase : a.user_id == uid <;> simp [hcase]
    simp [hpred, huid]

theorem getAutosave_of_rows (db : DB) (uid : Nat) (row : AutosaveRow)
    (h : db.autosave.filter (fun a => a.user_id == uid) = [row]) :
    apiGetAutosave db uid
      = some ⟨row.label, row.start_date, row.hourly_rate, row.overtime_multiplier,
          row.times.getD []⟩ := by
  rw [apiGetAutosave, find?_eq_head?_filter, h]
  rfl

/-- C7: posting the autosave twice leaves exactly one autosave row for the
user, that row holds the most recently posted payload, and a subsequent GET
returns that payload. -/
theorem C7_autosave_idempotent (db : DB) (uid : Nat) (p1 p2 : AutosavePayload)
    (h : (userAutosaves db uid).length ≤ 1) :
    (userAutosaves (apiPostAutosave (apiPostAutosave db uid p1).2 uid p2).2 uid).length
      = 1
  ∧ (∀ a ∈ userAutosaves (apiPostAutosave (apiPostAutosave db uid p1).2 uid p2).2 uid,
      a.user_id = uid ∧ a.label = p2.weekLabel ∧ a.start_date = p2.startDate
      ∧ a.hourly_rate = p2.hourlyRate ∧ a.overtime_multiplier = p2.overtimeMultiplier
      ∧ a.times = some p2.times)
  ∧ apiGetAutosave (apiPostAutosave (apiPostAutosave db uid p1).2 uid p2).2 uid
      = some p2 := by
  obtain ⟨i1, h1⟩ := postAutosave_userRows db uid p1 h
  have hlen1 : (userAutosaves (apiPostAutosave db uid p1).2 uid).length ≤ 1 := by
    rw [h1]
    exact Nat.le_refl 1
  obtain ⟨i2, h2⟩ := postAutosave_userRows (apiPostAutosave db uid p1).2 uid p2 hlen1
  refine ⟨by rw [h2]; rfl, ?_, ?_⟩
  · intro a ha
    rw [h2] at ha
    have := List.mem_singleton.mp ha
    rw [this]
    exact ⟨rfl, rfl, rfl, rfl, rfl, rfl⟩
  · rw [getAutosave_of_rows _ uid _ h2]
    rfl

/-- Witness for C7: two autosaves on a fresh store for user 1. -/
theorem C7_autosave_idempotent_witness :
    (userAutosaves (apiPostAutosave (apiPostAutosave DB.empty 1
        ⟨some "A", none, 45, 2, []⟩).2 1
        ⟨some "B", some "2024-01-01", 50, 2, [⟨some "08:00", none, none, none⟩]⟩).2 1).length
      = 1
  ∧ (∀ a ∈ userAutosaves (apiPostAutosave (apiPostAutosave DB.empty 1
        ⟨some "A", none, 45, 2, []⟩).2 1
        ⟨some "B", some "2024-01-01", 50, 2, [⟨some "08:00", none, none, none⟩]⟩).2 1,
      a.user_id = 1 ∧ a.label = some "B" ∧ a.start_date = some "2024-01-01"
      ∧ a.hourly_rate = 50 ∧ a.overtime_multiplier = 2
      ∧ a.times = some [⟨some "08:00", none, none, none⟩])
  ∧ apiGetAutosave (apiPostAutosave (apiPostAutosave DB.empty 1
        ⟨some "A", none, 45, 2, []⟩).2 1
        ⟨some "B", some "2024-01-01", 50, 2, [⟨some "08:00", none, none, none⟩]⟩).2 1
      = some ⟨some "B", some "2024-01-01", 50, 2, [⟨some "08:00", none, none, none⟩]⟩ :=
  C7_autosave_idempotent DB.empty 1 ⟨some "A", none, 45, 2, []⟩
    ⟨some "B", some "2024-01-01", 50, 2, [⟨some "08:00", none, none, none⟩]⟩
    (by decide)

/-! ## Entry invariant preservation -/

theorem weekEntries_congr (db db' : DB) (h : db'.time_entries = db.time_entries)
    (k : Nat) : weekEntries db' k = weekEntries db k := by
  rw [weekEntries, weekEntries, h]

theorem apiRegister_entries (db : DB) (u p : String) :
    (apiRegister db u p).2.time_entries = db.time_entries
  ∧ (apiRegister db u p).2.nextWeekId = db.nextWeekId := by
  unfold apiRegister
  repeat' split
  all_goals exact ⟨rfl, rfl⟩

theorem apiPostAutosave_entries (db : DB) (uid : Nat) (r : AutosavePayload) :
    (apiPostAutosave db uid r).2.time_entries = db.time_entries
  ∧ (apiPostAutosave db uid r).2.nextWeekId = db.nextWeekId := by
  unfold apiPostAutosave
  repeat' split
  all_goals exact ⟨rfl, rfl⟩

theorem apiDeleteAutosave_entries (db : DB) (uid : Nat) :
    (apiDeleteAutosave db uid).2.time_entries = db.time_entries
  ∧ (apiDeleteAutosave db uid).2.nextWeekId = db.nextWeekId :=
  ⟨rfl, rfl⟩

theorem apiDeleteWeek_entries (db : DB) (uid wid : Nat) :
    ((apiDeleteWeek db uid wid).2.time_entries = db.time_entries
      ∧ (apiDeleteWeek db uid wid).2.nextWeekId = db.nextWeekId)
  ∨ ((apiDeleteWeek db uid wid).2.time_entries
        = db.time_entries.filter (fun e => e.week_id != wid)
      ∧ (apiDeleteWeek db uid wid).2.nextWeekId = db.nextWeekId) := by
  cases hf : db.weeks.find? (fun w => w.id == wid) with
  | none =>
    have hres : apiDeleteWeek db uid wid = (.error notAuthorizedErr, db) := by
      simp [apiDeleteWeek, hf]
    rw [hres]
    exact Or.inl ⟨rfl, rfl⟩
  | some w =>
    by_cases hw : (w.user_id == uid) = true
    · have hres : apiDeleteWeek db uid wid
          = (.ok true,
             { db with
               time_entries := db.time_entries.filter (fun e => e.week_id != wid)
               weeks := db.weeks.filter (fun x => x.id != wid) }) := by
        simp [apiDeleteWeek, hf, hw]
      rw [hres]
      exact Or.inr ⟨rfl, rfl⟩
    · have hres : apiDeleteWeek db uid wid = (.error notAuthorizedErr, db) := by
        simp [apiDeleteWeek, hf, hw]
      rw [hres]
      exact Or.inl ⟨rfl, rfl⟩

theorem apiPostWeek_entries (db : DB) (uid : Nat) (r : WeekReq) :
    ((apiPostWeek db uid r).2.time_entries = db.time_entries
      ∧ (apiPostWeek db uid r).2.nextWeekId = db.nextWeekId + 1)
  ∨ ∃ ts, r.times = some ts
      ∧ (apiPostWeek db uid r).2.time_entries
          = db.time_entries ++ insertEntries db.nextWeekId db.nextEntryId ts
      ∧ (apiPostWeek db uid r).2.nextWeekId = db.nextWeekId + 1 := by
  cases hts : r.times with
  | none => exact Or.inl ⟨by simp [apiPostWeek, hts], by simp [apiPostWeek, hts]⟩
  | some ts =>
    exact Or.inr ⟨ts, rfl, by simp [apiPostWeek, hts], by simp [apiPostWeek, hts]⟩

theorem filter_insertEntries (wid nid : Nat) (ts : List TimeFields) (k : Nat) :
    (insertEntries wid nid ts).filter (fun e => e.week_id == k)
      = if k = wid then insertEntries wid nid ts else [] := by
  by_cases hk : k = wid
  · rw [if_pos hk]
    subst hk
    rw [List.filter_eq_self]
    intro e he
    rw [insertEntries] at he
    obtain ⟨p, hp, rfl⟩ := List.mem_map.mp he
    simp
  · rw [if_neg hk]
    rw [List.filter_eq_nil_iff]
    intro e he
    rw [insertEntries] at he
    obtain ⟨p, hp, rfl⟩ := List.mem_map.mp he
    simp only [beq_iff_eq]
    omega

theorem map_dayIndex_insertEntries (wid nid : Nat) (ts : List TimeFields) :
    (insertEntries wid nid ts).map (fun e => e.day_index) = List.range ts.length := by
  rw [insertEntries, List.map_map]
  rw [show ((fun e : EntryRow => e.day_index) ∘ fun p : Nat × TimeFields =>
      (⟨nid + p.1, wid, p.1, normFields p.2⟩ : EntryRow)) = Prod.fst from rfl]
  exact List.map_fst_zip _ _ (by simp)

theorem length_insertEntries (wid nid : Nat) (ts : List TimeFields) :
    (insertEntries wid nid ts).length = ts.length := by
  rw [insertEntries]
  simp [List.length_zip]

theorem entriesInv_step7 (db db' : DB) (hstep : Step7 db db')
    (hinv : EntriesInv db ∧ Entries7 db) : EntriesInv db' ∧ Entries7 db' := by
  obtain ⟨⟨hrange, hbound⟩, h7⟩ := hinv
  cases hstep with
  | register u p =>
    obtain ⟨hT, hN⟩ := apiRegister_entries db u p
    refine ⟨⟨?_, ?_⟩, ?_⟩
    · intro k
      rw [weekEntries_congr _ _ hT]
      exact hrange k
    · intro e he
      rw [hT] at he
      rw [hN]
      exact hbound e he
    · intro k
      rw [weekEntries_congr _ _ hT]
      exact h7 k
  | postAutosave uid r =>
    obtain ⟨hT, hN⟩ := apiPostAutosave_entries db uid r
    refine ⟨⟨?_, ?_⟩, ?_⟩
    · intro k
      rw [weekEntries_congr _ _ hT]
      exact hrange k
    · intro e he
      rw [hT] at he
      rw [hN]
      exact hbound e he
    · intro k
      rw [weekEntries_congr _ _ hT]
      exact h7 k
  | deleteAutosave uid =>
    obtain ⟨hT, hN⟩ := apiDeleteAutosave_entries db uid
    refine ⟨⟨?_, ?_⟩, ?_⟩
    · intro k
      rw [weekEntries_congr _ _ hT]
      exact hrange k
    · intro e he
      rw [hT] at he
      rw [hN]
      exact hbound e he
    · intro k
      rw [weekEntries_congr _ _ hT]
      exact h7 k
  | deleteWeek uid wid =>
    rcases apiDeleteWeek_entries db uid wid with ⟨hT, hN⟩ | ⟨hT, hN⟩
    · refine ⟨⟨?_, ?_⟩, ?_⟩
      · intro k
        rw [weekEntries_congr _ _ hT]
        exact hrange k
      · intro e he
        rw [hT] at he
        rw [hN]
        exact hbound e he
      · intro k
        rw [weekEntries_congr _ _ hT]
        exact h7 k
    · have hwe : ∀ k, weekEntries (apiDeleteWeek db uid wid).2 k
          = if k = wid then [] else weekEntries db k := by
        intro k
        rw [weekEntries, hT]
        by_cases hk : k = wid
        · rw [if_pos hk]
          subst hk
          rw [List.filter_eq_nil_iff]
          intro e he
          obtain ⟨_, hne⟩ := List.mem_filter.mp he
          simp only [beq_iff_eq]
          simpa using hne
        · rw [if_neg hk]
          rw [List.filter_filter]
          apply List.filter_congr
          intro e _
          by_cases hek : (e.week_id == k) = true
          · have : e.week_id = k := by simpa using hek
            simp [this, hk]
          · simp [hek]
      refine ⟨⟨?_, ?_⟩, ?_⟩
      · intro k
        rw [hwe k]
        by_cases hk : k = wid
        · simp [hk]
        · rw [if_neg hk]
          exact hrange k
      · intro e he
        rw [hT] at he
        rw [hN]
        exact hbound e (List.mem_filter.mp he).1
      · intro k
        rw [hwe k]
        by_cases hk : k = wid
        · simp [hk]
        · rw [if_neg hk]
          exact h7 k
  | postWeek uid r hlen7 =>
    rcases apiPostWeek_entries db uid r with ⟨hT, hN⟩ | ⟨ts, hts, hT, hN⟩
    · refine ⟨⟨?_, ?_⟩, ?_⟩
      · intro k
        rw [weekEntries_congr _ _ hT]
        exact hrange k
      · intro e he
        rw [hT] at he
        rw [hN]
        exact Nat.lt_succ_of_lt (hbound e he)
      · intro k
        rw [weekEntries_congr _ _ hT]
        exact h7 k
    · have hts7 : ts.length ≤ 7 := hlen7 ts hts
      have hfresh : weekEntries db db.nextWeekId = [] := by
        rw [weekEntries, List.filter_eq_nil_iff]
        intro e he
        have := hbound e he
        simp only [beq_iff_eq]
        omega
      have hwe : ∀ k, weekEntries (apiPostWeek db uid r).2 k
          = weekEntries db k ++
            (if k = db.nextWeekId
              then insertEntries db.nextWeekId db.nextEntryId ts else []) := by
        intro k
        rw [weekEntries, hT, List.filter_append]
        rw [show (insertEntries db.nextWeekId db.nextEntryId ts).filter
              (fun e => e.week_id == k)
            = if k = db.nextWeekId
                then insertEntries db.nextWeekId db.nextEntryId ts else []
          from filter_insertEntries _ _ _ k]
        rfl
      refine ⟨⟨?_, ?_⟩, ?_⟩
      · intro k
        rw [hwe k]
        by_cases hk : k = db.nextWeekId
        · subst hk
          rw [hfresh, if_pos rfl, List.nil_append, map_dayIndex_insertEntries,
            length_insertEntries]
        · rw [if_neg hk, List.append_nil]
          exact hrange k
      · intro e he
        rw [hT] at he
        rw [hN]
        rcases List.mem_append.mp he with hcase | hcase
        · exact Nat.lt_succ_of_lt (hbound e hcase)
        · rw [insertEntries] at hcase
          obtain ⟨p, hp, rfl⟩ := List.mem_map.mp hcase
          exact Nat.lt_succ_self _
      · intro k
        rw [hwe k]
        by_cases hk : k = db.nextWeekId
        · subst hk
          rw [hfresh, if_pos rfl, List.nil_append, length_insertEntries]
          exact hts7
        · rw [if_neg hk, List.append_nil]
          exact h7 k

theorem reachable7_inv (db : DB) (h : Reachable7 db) :
    EntriesInv db ∧ Entries7 db := by
  induction h with
  | init =>
    refine ⟨⟨?_, ?_⟩, ?_⟩
    · intro k
      rfl
    · intro e he
      simp [DB.empty] at he
    · intro k
      exact Nat.zero_le 7
  | step hr hs ih => exact entriesInv_step7 _ _ hs ih

/-- C5 (amended): in every store reachable through the public API with week
payloads of at most 7 days, the entries of any one week carry
pairwise-distinct `day_index` values in [0,7), and every listed week's
times come back ordered by `day_index` (the ordering needs no payload
restriction). -/
theorem C5_entries_invariant (db : DB) (h : Reachable7 db) :
    (∀ k, ((weekEntries db k).map (fun e => e.day_index)).Nodup
        ∧ ∀ e ∈ weekEntries db k, e.day_index < 7)
  ∧ (∀ uid : Nat, ∀ fw ∈ apiGetWeeks db uid,
      List.Pairwise (fun a b => a.day_index ≤ b.day_index) fw.data.times) := by
  obtain ⟨⟨hrange, hbound⟩, h7⟩ := reachable7_inv db h
  constructor
  · intro k
    constructor
    · rw [hrange k]
      exact List.nodup_range _
    · intro e he
      have hmem : e.day_index ∈ (weekEntries db k).map (fun e => e.day_index) :=
        List.mem_map_of_mem _ he
      rw [hrange k] at hmem
      have hlt := List.mem_range.mp hmem
      have := h7 k
      omega
  · intro uid fw hfw
    simp only [apiGetWeeks] at hfw
    obtain ⟨w, hw, rfl⟩ := List.mem_map.mp hfw
    exact pairwise_sortAsc (fun t : TimesObj => t.day_index)
      ((weekEntries db w.id).map entryToObj)

/-- Witness for C5: the store after registering one user and saving one
7-day week. -/
theorem C5_entries_invariant_witness :
    (∀ k, ((weekEntries ((apiPostWeek (apiRegister DB.empty "alice" "hunter2").2 1
          ⟨"W", none, 45, 2,
            some (List.replicate 7 ⟨none, none, none, none⟩)⟩).2) k).map
            (fun e => e.day_index)).Nodup
        ∧ ∀ e ∈ weekEntries ((apiPostWeek (apiRegister DB.empty "alice" "hunter2").2 1
          ⟨"W", none, 45, 2,
            some (List.replicate 7 ⟨none, none, none, none⟩)⟩).2) k,
            e.day_index < 7)
  ∧ (∀ uid : Nat,
      ∀ fw ∈ apiGetWeeks ((apiPostWeek (apiRegister DB.empty "alice" "hunter2").2 1
          ⟨"W", none, 45, 2,
            some (List.replicate 7 ⟨none, none, none, none⟩)⟩).2) uid,
      List.Pairwise (fun a b => a.day_index ≤ b.day_index) fw.data.times) :=
  C5_entries_invariant _
    (Reachable7.step
      (Reachable7.step Reachable7.init (Step7.register DB.empty "alice" "hunter2"))
      (Step7.postWeek (apiRegister DB.empty "alice" "hunter2").2 1
        ⟨"W", none, 45, 2, some (List.replicate 7 ⟨none, none, none, none⟩)⟩
        (by
          intro ts hts
          simp only [Option.mem_def, Option.some.injEq] at hts
          rw [← hts]
          decide)))

/-- C5 counterexample: the claim as stated is false — the server never
validates the length of `data.times`, so a reachable store (register, then
save a week with 8 day entries) holds an entry whose `day_index` is 7,
outside [0,7). -/
theorem C5_day_index_out_of_range :
    ¬ (∀ db : DB, Reachable db → ∀ e ∈ db.time_entries, e.day_index < 7) := by
  intro hall
  have hr : Reachable ((apiPostWeek (apiRegister DB.empty "alice" "hunter2").2 1
      ⟨"W8", none, 45, 2, some (List.replicate 8 ⟨none, none, none, none⟩)⟩).2) :=
    Reachable.step
      (Reachable.step Reachable.init (Step.register DB.empty "alice" "hunter2"))
      (Step.postWeek (apiRegister DB.empty "alice" "hunter2").2 1
        ⟨"W8", none, 45, 2, some (List.replicate 8 ⟨none, none, none, none⟩)⟩)
  have hmem : (⟨8, 1, 7, ⟨none, none, none, none⟩⟩ : EntryRow)
      ∈ ((apiPostWeek (apiRegister DB.empty "alice" "hunter2").2 1
          ⟨"W8", none, 45, 2,
            some (List.replicate 8 ⟨none, none, none, none⟩)⟩).2).time_entries := by
    decide
  exact absurd (hall _ hr _ hmem) (by decide)

end Payroll
